import Mathlib

/-!
Verification of the `Electrolyte` component of PyBaMM
(`pybamm/models/components/electrolyte.py`).

The component computes right-hand sides for two finite-volume conservation
laws on a 1-D mesh.  We shallowly embed it here:

* numpy 1-D arrays become `List ℚ` (exact rational arithmetic; the claims
  under verification are structural/algebraic, not about float rounding);
* numpy elementwise `+`/`-` with its length-1 broadcasting rule becomes
  `npAdd`/`npSub`, returning `none` where numpy raises a shape error;
* the external operator, parameter and mesh contexts become records of
  abstract functions, exactly the interface the source consumes;
* Python domain strings become the closed `Domain` type `{xcn, xc, xcp}`
  (the keys of the operator context); the source's `dict` lookup
  `self.operators[domain]` becomes an `Option`-valued lookup;
* each Python method becomes a function taking the object state
  (`Electrolyte`) and returning `result × Electrolyte`, where the returned
  state is built from the method's attribute assignments — no method other
  than `set_simulation` assigns, so they all return the input state.
-/

namespace PyBaMM

/-- A 1-D numpy array of the source, as a list of exact rationals. -/
abbrev Field := List ℚ

/-- numpy scalar–array product `a * xs`. -/
def npScalarMul (a : ℚ) (xs : Field) : Field :=
  xs.map (fun x => a * x)

/-- numpy unary negation `-xs`. -/
def npNeg (xs : Field) : Field :=
  xs.map (fun x => -x)

/-- `np.ones_like xs`. -/
def npOnesLike (xs : Field) : Field :=
  xs.map (fun _ => (1 : ℚ))

/-- numpy elementwise addition of 1-D arrays, including the length-1
broadcasting rule; `none` models numpy's shape-mismatch `ValueError`. -/
def npAdd (xs ys : Field) : Option Field :=
  if xs.length = ys.length then some (List.zipWith (fun a b => a + b) xs ys)
  else if xs.length = 1 then some (ys.map (fun y => xs.headI + y))
  else if ys.length = 1 then some (xs.map (fun x => x + ys.headI))
  else none

/-- numpy elementwise subtraction of 1-D arrays, including the length-1
broadcasting rule; `none` models numpy's shape-mismatch `ValueError`. -/
def npSub (xs ys : Field) : Option Field :=
  if xs.length = ys.length then some (List.zipWith (fun a b => a - b) xs ys)
  else if xs.length = 1 then some (ys.map (fun y => xs.headI - y))
  else if ys.length = 1 then some (xs.map (fun x => x - ys.headI))
  else none

/-- The domain identifiers accepted by the operator context
(Python strings `"xcn"`, `"xc"`, `"xcp"`). -/
inductive Domain where
  | xcn : Domain
  | xc : Domain
  | xcp : Domain
deriving DecidableEq

/-- One entry of the operator context: the discrete gradient and
divergence operators for one domain (external black boxes). -/
structure Operators where
  grad : Field → Field
  div : Field → Field

/-- The parameter context consumed by the source (external, read-only). -/
structure Parameters where
  c0 : ℚ
  s : ℚ
  gamma_dl_n : ℚ
  gamma_dl_p : ℚ
  icell : ℚ → ℚ
  U_Pb : ℚ → ℚ
  U_PbO2 : ℚ → ℚ

/-- The mesh context: cell-centre coordinate arrays (external, read-only). -/
structure Mesh where
  xc : Field
  xcn : Field
  xcp : Field

/-- The `Electrolyte` object's attributes after `set_simulation`:
the three contexts.  `operators` is the domain-keyed dict. -/
structure Electrolyte where
  param : Parameters
  operators : Domain → Option Operators
  mesh : Mesh

/-- The dict returned by `initial_conditions` (keys `c`, `en`, `ep`). -/
structure InitialValues where
  c : Field
  en : Field
  ep : Field

/-- `Electrolyte.set_simulation`: assigns the three context attributes
(the only method that writes the object state). -/
def set_simulation (_self : Electrolyte) (param : Parameters)
    (operators : Domain → Option Operators) (mesh : Mesh) :
    Unit × Electrolyte :=
  ((), { param := param, operators := operators, mesh := mesh })

/-- `Electrolyte.initial_conditions`:
`c0 * ones_like(xc)`, `U_Pb(c0) * ones_like(xcn)`, `U_PbO2(c0) * ones_like(xcp)`. -/
def initial_conditions (self : Electrolyte) : InitialValues × Electrolyte :=
  (⟨npScalarMul self.param.c0 (npOnesLike self.mesh.xc),
    npScalarMul (self.param.U_Pb self.param.c0) (npOnesLike self.mesh.xcn),
    npScalarMul (self.param.U_PbO2 self.param.c0) (npOnesLike self.mesh.xcp)⟩,
   self)

/-- `Electrolyte.cation_conservation`:
`N_internal = -grad(c)`; `N = concat(lbc, N_internal, rbc)`;
`dcdt = -div(N) + s * j`.  The final `+` is numpy elementwise addition;
`none` models the shape error numpy raises when it fails. -/
def cation_conservation (self : Electrolyte) (c j : Field)
    (flux_bcs : Field × Field) : Option Field × Electrolyte :=
  ((self.operators Domain.xc).bind (fun ops =>
    let N_internal := npNeg (ops.grad c)
    let N := flux_bcs.1 ++ N_internal ++ flux_bcs.2
    npAdd (npNeg (ops.div N)) (npScalarMul self.param.s j)),
   self)

/-- `Electrolyte.bcs_cation_flux`: always `(array([0]), array([0]))`. -/
def bcs_cation_flux (self : Electrolyte) : (Field × Field) × Electrolyte :=
  (([0], [0]), self)

/-- `Electrolyte.macinnes`:
`i_inner = kappa_over_c * grad(c) + kappa * grad(e)` with both coefficients
literally `1`; `i = concat(lbc, i_inner, rbc)`.  The dict lookup
`self.operators[domain]` fails (`none`) only when the key is absent. -/
def macinnes (self : Electrolyte) (domain : Domain) (c e : Field)
    (current_bcs : Field × Field) : Option Field × Electrolyte :=
  ((self.operators domain).bind (fun operators =>
    let kappa_over_c : ℚ := 1
    let kappa : ℚ := 1
    (npAdd (npScalarMul kappa_over_c (operators.grad c))
        (npScalarMul kappa (operators.grad e))).map
      (fun i_inner => current_bcs.1 ++ i_inner ++ current_bcs.2)),
   self)

/-- `Electrolyte.current_conservation`:
`i = macinnes(domain, c, e, bcs)`; `gamma_dl` selected by domain
(`gamma_dl_n` for `xcn`, `gamma_dl_p` for `xcp`, otherwise unbound —
the Python `if`/`elif` has no `else`, so any other domain hits an
`UnboundLocalError`, modelled as `none`);
`dedt = 1 / gamma_dl * (div(i) - j)`. -/
def current_conservation (self : Electrolyte) (domain : Domain)
    (c e j : Field) (current_bcs : Field × Field) :
    Option Field × Electrolyte :=
  (((macinnes self domain c e current_bcs).1).bind (fun i =>
    (match domain with
     | Domain.xcn => some self.param.gamma_dl_n
     | Domain.xcp => some self.param.gamma_dl_p
     | Domain.xc => none).bind (fun gamma_dl =>
      (self.operators domain).bind (fun ops =>
        (npSub (ops.div i) j).map
          (fun d => npScalarMul (1 / gamma_dl) d)))),
   self)

/-- `Electrolyte.bcs_current`: `(array([0]), array([icell(t)]))` for `xcn`,
`(array([icell(t)]), array([0]))` for `xcp`; the Python `if`/`elif` has no
`else`, so any other domain hits an `UnboundLocalError`, modelled as `none`. -/
def bcs_current (self : Electrolyte) (domain : Domain) (t : ℚ) :
    Option (Field × Field) × Electrolyte :=
  (match domain with
   | Domain.xcn => some (([0], [self.param.icell t]))
   | Domain.xcp => some (([self.param.icell t], [0]))
   | Domain.xc => none,
   self)

/-! ### Concrete contexts used for witnesses and counterexamples -/

/-- Central-difference-style concrete operators: both `grad` and `div`
map a length-`m` array to the length-`(m-1)` array of consecutive
differences, matching the face/cell arities the component relies on. -/
def diffOp : Operators :=
  ⟨fun xs => List.zipWith (fun a b => b - a) xs xs.tail,
   fun xs => List.zipWith (fun a b => b - a) xs xs.tail⟩

/-- A concrete parameter context for witnesses. -/
def demoParams : Parameters :=
  ⟨1, 2, 3, 5, fun _ => 7, fun c => c + 1, fun c => c + 2⟩

/-- A concrete mesh: electrolyte of 3 cells, electrodes of 2 cells. -/
def demoMesh : Mesh :=
  ⟨[0, 1, 2], [0, 1], [1, 2]⟩

/-- A concrete operator context with every domain key present. -/
def demoOps : Domain → Option Operators := fun _ => some diffOp

/-- A concrete configured `Electrolyte` object. -/
def demoE : Electrolyte :=
  ⟨demoParams, demoOps, demoMesh⟩

/-! ### Helper lemmas -/

/-- numpy addition of equal-length arrays is the elementwise `zipWith`. -/
theorem npAdd_of_length_eq {xs ys : Field} (h : xs.length = ys.length) :
    npAdd xs ys = some (List.zipWith (fun a b => a + b) xs ys) := by
  simp [npAdd, h]

/-- numpy subtraction of equal-length arrays is the elementwise `zipWith`. -/
theorem npSub_of_length_eq {xs ys : Field} (h : xs.length = ys.length) :
    npSub xs ys = some (List.zipWith (fun a b => a - b) xs ys) := by
  simp [npSub, h]

/-- numpy addition is commutative (as numpy's broadcast `+` is). -/
theorem npAdd_comm (xs ys : Field) : npAdd xs ys = npAdd ys xs := by
  unfold npAdd
  rcases eq_or_ne xs.length ys.length with h | h
  · simp only [h, if_pos rfl, if_true]
    rw [List.zipWith_comm_of_comm (fun a b => a + b) (fun a b => add_comm a b)]
  · simp only [if_neg h, if_neg (Ne.symm h)]
    rcases eq_or_ne xs.length 1 with h1 | h1
    · have h2 : ys.length ≠ 1 := by omega
      simp only [if_pos h1, if_neg h2, if_pos h1]
      congr 1
      exact List.map_congr_left fun y _ => add_comm xs.headI y
    · simp only [if_neg h1]
      rcases eq_or_ne ys.length 1 with h2 | h2
      · simp only [if_pos h2]
        congr 1
        exact List.map_congr_left fun x _ => add_comm x ys.headI
      · simp [if_neg h2]

/-- Negation preserves array length. -/
theorem npNeg_length (xs : Field) : (npNeg xs).length = xs.length := by
  simp [npNeg]

/-- Scalar multiplication preserves array length. -/
theorem npScalarMul_length (a : ℚ) (xs : Field) :
    (npScalarMul a xs).length = xs.length := by
  simp [npScalarMul]

/-- A constant scalar times `ones_like xs` is a constant array of the
scalar, of the same length as `xs`. -/
theorem npScalarMul_onesLike (a : ℚ) (xs : Field) :
    npScalarMul a (npOnesLike xs) = List.replicate xs.length a := by
  simp [npScalarMul, npOnesLike, List.map_map, Function.comp, mul_one]

/-! ### Claim theorems -/

/-- C1: with the operator context supplying the `xc` operators, and `c`, `j`
both of the electrolyte length `n` (with the divergence returning `n` cell
values as the mesh arity demands), `cation_conservation(c, j, (lbc, rbc))`
returns the length-`n` field `-div_xc(concat(lbc, -grad_xc(c), rbc)) + s*j`,
elementwise. -/
theorem C1_cation_conservation_formula (E : Electrolyte) (ops : Operators)
    (c j lbc rbc : Field) (n : ℕ)
    (hops : E.operators Domain.xc = some ops)
    (hc : c.length = n) (hj : j.length = n)
    (hdiv : (ops.div (lbc ++ npNeg (ops.grad c) ++ rbc)).length = n) :
    (cation_conservation E c j (lbc, rbc)).1
      = some (List.zipWith (fun a b => -a + E.param.s * b)
          (ops.div (lbc ++ npNeg (ops.grad c) ++ rbc)) j) ∧
    (List.zipWith (fun a b => -a + E.param.s * b)
        (ops.div (lbc ++ npNeg (ops.grad c) ++ rbc)) j).length = n := by
  constructor
  · simp only [cation_conservation, hops, Option.some_bind]
    rw [npAdd_of_length_eq]
    · simp only [npNeg, npScalarMul, List.zipWith_map]
    · simp only [npNeg_length, npScalarMul_length, hdiv, hj]
  · simp only [List.length_zipWith, hdiv, hj, min_self]

/-- Witness for C1 at the concrete context: mesh length 3,
`c = [1,2,3]`, `j = [4,5,6]`, zero boundary fluxes. -/
theorem C1_cation_conservation_formula_witness :
    (cation_conservation demoE [1, 2, 3] [4, 5, 6] ([0], [0])).1
      = some (List.zipWith (fun a b => -a + demoE.param.s * b)
          (diffOp.div ([0] ++ npNeg (diffOp.grad [1, 2, 3]) ++ [0])) [4, 5, 6]) ∧
    (List.zipWith (fun a b => -a + demoE.param.s * b)
        (diffOp.div ([0] ++ npNeg (diffOp.grad [1, 2, 3]) ++ [0]))
        [4, 5, 6]).length = 3 :=
  C1_cation_conservation_formula demoE diffOp [1, 2, 3] [4, 5, 6] [0] [0] 3
    rfl rfl rfl (by decide)

/-- C2: for domains `xcn` and `xcp` (with the matching double-layer scalar
`gamma_dl_n` resp. `gamma_dl_p`), when `macinnes` yields the face current
`i` and `div(i)` matches `j` in length, `current_conservation` returns
`(1/gamma_dl) * (div(i) - j)`, elementwise. -/
theorem C2_current_conservation_formula (E : Electrolyte) (ops : Operators)
    (d : Domain) (c e j i : Field) (bcs : Field × Field) (gamma_dl : ℚ)
    (hd : d = Domain.xcn ∧ gamma_dl = E.param.gamma_dl_n ∨
          d = Domain.xcp ∧ gamma_dl = E.param.gamma_dl_p)
    (hops : E.operators d = some ops)
    (hi : (macinnes E d c e bcs).1 = some i)
    (hlen : (ops.div i).length = j.length) :
    (current_conservation E d c e j bcs).1
      = some (List.zipWith (fun a b => 1 / gamma_dl * (a - b)) (ops.div i) j) := by
  rcases hd with ⟨hdom, hg⟩ | ⟨hdom, hg⟩ <;>
    · subst hdom
      subst hg
      simp only [current_conservation, hi, Option.some_bind, hops,
        npSub_of_length_eq hlen, Option.map_some']
      simp only [npScalarMul, List.map_zipWith]

/-- Witness for C2 on domain `xcn` at the concrete context. -/
theorem C2_current_conservation_formula_witness :
    (current_conservation demoE Domain.xcn [1, 2] [3, 4] [1, 1] ([0], [0])).1
      = some (List.zipWith
          (fun a b => 1 / demoE.param.gamma_dl_n * (a - b))
          (diffOp.div [0, 2, 0]) [1, 1]) :=
  C2_current_conservation_formula demoE diffOp Domain.xcn [1, 2] [3, 4]
    [1, 1] [0, 2, 0] ([0], [0]) demoE.param.gamma_dl_n
    (Or.inl ⟨rfl, rfl⟩) rfl
    (by norm_num [macinnes, demoE, demoOps, diffOp, npAdd, npScalarMul])
    (by decide)

/-- C3: for a valid domain with its operators present, fields `c`, `e` of
length `n ≥ 1` whose gradients have the interior-face length `n - 1`, and
length-1 boundary arrays, `macinnes` returns
`concat(lbc, 1*grad(c) + 1*grad(e), rbc)`: length `n + 1`, first entry the
left boundary value, last entry the right boundary value, interior the sum
of the two unit-coefficient gradient terms. -/
theorem C3_macinnes_assembly (E : Electrolyte) (ops : Operators)
    (d : Domain) (c e lbc rbc : Field) (n : ℕ)
    (hd : d = Domain.xcn ∨ d = Domain.xcp)
    (hops : E.operators d = some ops)
    (hc : c.length = n) (he : e.length = n) (hn : 1 ≤ n)
    (hgc : (ops.grad c).length = n - 1) (hge : (ops.grad e).length = n - 1)
    (hlbc : lbc.length = 1) (hrbc : rbc.length = 1) :
    (macinnes E d c e (lbc, rbc)).1
      = some (lbc ++
          List.zipWith (fun a b => 1 * a + 1 * b) (ops.grad c) (ops.grad e)
          ++ rbc) ∧
    (lbc ++ List.zipWith (fun a b => 1 * a + 1 * b) (ops.grad c) (ops.grad e)
        ++ rbc).length = n + 1 ∧
    (lbc ++ List.zipWith (fun a b => 1 * a + 1 * b) (ops.grad c) (ops.grad e)
        ++ rbc).head? = lbc.head? ∧
    (lbc ++ List.zipWith (fun a b => 1 * a + 1 * b) (ops.grad c) (ops.grad e)
        ++ rbc).getLast? = rbc.getLast? := by
  obtain ⟨x, hx⟩ := List.length_eq_one.mp hlbc
  obtain ⟨y, hy⟩ := List.length_eq_one.mp hrbc
  refine ⟨?_, ?_, ?_, ?_⟩
  · simp only [macinnes, hops, Option.some_bind]
    rw [npAdd_of_length_eq]
    · simp only [npScalarMul, List.zipWith_map, Option.map_some']
    · simp only [npScalarMul_length, hgc, hge]
  · simp only [List.length_append, List.length_zipWith, hgc, hge, hlbc, hrbc,
      min_self]
    omega
  · subst hx
    rfl
  · subst hy
    rw [List.getLast?_concat]
    rfl

/-- Witness for C3 at the concrete context: `n = 2`, boundary values 9, 8. -/
theorem C3_macinnes_assembly_witness :
    (macinnes demoE Domain.xcn [1, 2] [3, 4] ([9], [8])).1
      = some ([9] ++
          List.zipWith (fun a b => 1 * a + 1 * b)
            (diffOp.grad [1, 2]) (diffOp.grad [3, 4]) ++ [8]) ∧
    ([9] ++ List.zipWith (fun a b => 1 * a + 1 * b)
        (diffOp.grad [1, 2]) (diffOp.grad [3, 4]) ++ [8]).length = 2 + 1 ∧
    ([9] ++ List.zipWith (fun a b => 1 * a + 1 * b)
        (diffOp.grad [1, 2]) (diffOp.grad [3, 4]) ++ [8]).head?
      = ([9] : Field).head? ∧
    ([9] ++ List.zipWith (fun a b => 1 * a + 1 * b)
        (diffOp.grad [1, 2]) (diffOp.grad [3, 4]) ++ [8]).getLast?
      = ([8] : Field).getLast? :=
  C3_macinnes_assembly demoE diffOp Domain.xcn [1, 2] [3, 4] [9] [8] 2
    (Or.inl rfl) rfl rfl rfl (by decide) (by decide) (by decide) rfl rfl

/-- C4 (code divergence): with the `xc` key present in the operator context
— as it is in any configured simulation — `macinnes` called with the
invalid domain `xc` silently returns a value (here the length-3 array
`[0, 2, 0]`) instead of raising an invalid-domain error; and
`current_conservation` on the same invalid domain fails only through the
incidental unbound-local failure of `gamma_dl`, not an explicit
invalid-domain check. -/
theorem C4_invalid_domain_divergence :
    (Domain.xc ≠ Domain.xcn ∧ Domain.xc ≠ Domain.xcp) ∧
    (macinnes demoE Domain.xc [1, 2] [3, 4] ([0], [0])).1 = some [0, 2, 0] ∧
    (current_conservation demoE Domain.xc [1, 2] [3, 4] [1, 1] ([0], [0])).1
      = none := by
  refine ⟨⟨by decide, by decide⟩, ?_, ?_⟩
  · norm_num [macinnes, demoE, demoOps, diffOp, npAdd, npScalarMul]
  · norm_num [current_conservation, macinnes, demoE, demoOps, diffOp,
      npAdd, npScalarMul]

/-- C5: `initial_conditions` returns exactly the three fields `c`, `en`,
`ep`; `c` is uniformly `c0` with the length of `mesh.xc`, `en` uniformly
`U_Pb(c0)` with the length of `mesh.xcn`, `ep` uniformly `U_PbO2(c0)` with
the length of `mesh.xcp`. -/
theorem C5_initial_conditions_spec (E : Electrolyte) :
    (initial_conditions E).1.c
        = List.replicate E.mesh.xc.length E.param.c0 ∧
    (initial_conditions E).1.en
        = List.replicate E.mesh.xcn.length (E.param.U_Pb E.param.c0) ∧
    (initial_conditions E).1.ep
        = List.replicate E.mesh.xcp.length (E.param.U_PbO2 E.param.c0) := by
  refine ⟨?_, ?_, ?_⟩ <;> simp [initial_conditions, npScalarMul_onesLike]

/-- C6: `bcs_current` returns `(0, icell(t))` on `xcn` and `(icell(t), 0)`
on `xcp`, and the two results are mirror images (componentwise swap) for
the same `t`. -/
theorem C6_bcs_current_policy (E : Electrolyte) (t : ℚ) :
    (bcs_current E Domain.xcn t).1 = some ([0], [E.param.icell t]) ∧
    (bcs_current E Domain.xcp t).1 = some ([E.param.icell t], [0]) ∧
    (bcs_current E Domain.xcp t).1
      = ((bcs_current E Domain.xcn t).1).map (fun p => (p.2, p.1)) := by
  exact ⟨rfl, rfl, rfl⟩

/-- C7 (code divergence): with `c = [1,2,3]` of the mesh length 3 and
`j = [5]` of mismatched length 1, `cation_conservation` does not raise a
shape-mismatch error: numpy's length-1 broadcasting silently produces the
length-3 field `[11, 10, 9]` (with `s = 2`). -/
theorem C7_shape_mismatch_divergence :
    demoE.mesh.xc.length = 3 ∧
    ([5] : Field).length ≠ ([1, 2, 3] : Field).length ∧
    (cation_conservation demoE [1, 2, 3] [5] ([0], [0])).1
      = some [11, 10, 9] := by
  refine ⟨by decide, by decide, ?_⟩
  norm_num [cation_conservation, demoE, demoOps, demoParams, diffOp,
    npAdd, npNeg, npScalarMul]

/-- C8: `bcs_cation_flux` is a constant function of the object state: it
always returns the pair `([0], [0])`. -/
theorem C8_bcs_cation_flux_const (E : Electrolyte) :
    (bcs_cation_flux E).1 = (([0], [0]) : Field × Field) := by
  rfl

/-- C9: every evaluation operation returns the object state unchanged —
no method except `set_simulation` assigns the parameter, operator or mesh
attributes — while `set_simulation` stores exactly its three arguments. -/
theorem C9_frame_effects (E : Electrolyte) (d : Domain)
    (c e j t : _) (fbcs cbcs : Field × Field) (p : Parameters)
    (o : Domain → Option Operators) (m : Mesh) :
    (initial_conditions E).2 = E ∧
    (cation_conservation E c j fbcs).2 = E ∧
    (bcs_cation_flux E).2 = E ∧
    (current_conservation E d c e j cbcs).2 = E ∧
    (macinnes E d c e cbcs).2 = E ∧
    (bcs_current E d t).2 = E ∧
    (set_simulation E p o m).2
      = { param := p, operators := o, mesh := m } := by
  exact ⟨rfl, rfl, rfl, rfl, rfl, rfl, rfl⟩

/-- C10: `macinnes` is symmetric in its concentration and potential
arguments — both gradient terms carry the same unit coefficient and the
same domain gradient operator, and numpy addition is commutative. -/
theorem C10_macinnes_symm (E : Electrolyte) (d : Domain) (c e : Field)
    (bcs : Field × Field)
    (hd : d = Domain.xcn ∨ d = Domain.xcp)
    (hlen : c.length = e.length) :
    (macinnes E d c e bcs).1 = (macinnes E d e c bcs).1 := by
  simp only [macinnes]
  cases hE : E.operators d with
  | none => rfl
  | some ops =>
    simp only [Option.some_bind]
    rw [npAdd_comm]

/-- Witness for C10 at the concrete context. -/
theorem C10_macinnes_symm_witness :
    (macinnes demoE Domain.xcn [1, 2] [3, 4] ([0], [0])).1
      = (macinnes demoE Domain.xcn [3, 4] [1, 2] ([0], [0])).1 :=
  C10_macinnes_symm demoE Domain.xcn [1, 2] [3, 4] ([0], [0])
    (Or.inl rfl) rfl

end PyBaMM
